import Mathlib

/-!
Verification development for a Confluence attachment-management tool
consisting of two Python scripts, `confluence_erase_attachments.py` and
`confluence_update_attachment.py`.  The scripts are shallowly embedded:
YAML/JSON values become the inductive `Yaml`, HTTP traffic is abstracted
as oracles supplying responses, and every mutating request (create,
update, delete) is recorded in an explicit trace.  Console output and
error-message texts are abstracted into outcome/error constructors.
-/

/-- YAML/JSON-like values as produced by `yaml.safe_load` and
`response.json()` in the scripts.  Floats and byte strings do not occur
in the claims' domain and are omitted. -/
inductive Yaml where
  | null
  | bool (b : Bool)
  | int (n : Int)
  | str (s : String)
  | list (xs : List Yaml)
  | dict (kvs : List (String × Yaml))

/-- Python truthiness (`bool(v)`) for the modelled values. -/
def Yaml.truthy : Yaml → Bool
  | .null => false
  | .bool b => b
  | .int n => n != 0
  | .str s => s != ""
  | .list xs => !xs.isEmpty
  | .dict kvs => !kvs.isEmpty

/-- Python `str(v)` for the modelled values.  The representation of
containers is not modelled precisely (the scripts only stringify
scalars); a fixed placeholder is used for them. -/
def Yaml.pyStr : Yaml → String
  | .null => "None"
  | .bool b => if b then "True" else "False"
  | .int n => toString n
  | .str s => s
  | .list _ => "[list]"
  | .dict _ => "[dict]"

/-- `d.get(k)` on a modelled dictionary: `none` when the key is absent
(Python `None`). -/
def yamlGet (y : Yaml) (k : String) : Option Yaml :=
  match y with
  | .dict kvs => List.lookup k kvs
  | _ => none

/-- Error taxonomy of the scripts.  `typer.Exit(code=2)` sites are the
spec's `ConfigError`s; `pyError` marks inputs on which the Python code
would raise an uncaught `TypeError`/`AttributeError`. -/
inductive Failure where
  | configNotAList
  | configNoConfluence
  | configNoPageId
  | configSourceNotFound
  | envMissing
  | noBaseUrl
  | attachmentNotAccessible (status : Nat)
  | httpError (status : Nat)
  | notFound
  | updateFailed (status : Nat)
  | createFailed (status : Nat)
  | userDeclined
  | outOfFuel
  | pyError
deriving DecidableEq

/- ### Path normalisation: `os.path.normpath` / `os.path.basename`

`_norm(p) = os.path.basename(os.path.normpath(p))` (POSIX semantics).
Strings are processed through their character lists; `splitSlash`
mirrors `str.split('/')` and `joinSlash` mirrors `'/'.join`. -/

/-- `str.split('/')` on a character list; always non-empty. -/
def splitSlash : List Char → List (List Char)
  | [] => [[]]
  | c :: cs =>
    if c = '/' then [] :: splitSlash cs
    else
      match splitSlash cs with
      | [] => [[c]]
      | g :: gs => (c :: g) :: gs

/-- `'/'.join(groups)` on character lists. -/
def joinSlash : List (List Char) → List Char
  | [] => []
  | [g] => g
  | g :: g2 :: gs => g ++ '/' :: joinSlash (g2 :: gs)

/-- One step of `posixpath.normpath`'s component loop. -/
def normStep (initSlash : Bool) (acc : List (List Char)) (comp : List Char) :
    List (List Char) :=
  if comp = [] ∨ comp = ['.'] then acc
  else if comp ≠ ['.', '.'] then acc ++ [comp]
  else if (¬ initSlash ∧ acc = []) ∨ acc.getLast? = some ['.', '.'] then acc ++ [comp]
  else acc.dropLast

/-- The number of initial slashes `posixpath.normpath` preserves
(`path.startswith('//')` without `'///'` keeps two, any other leading
run one). -/
def initialSlashCount (cs : List Char) : Nat :=
  if cs.take 1 = ['/'] then
    if cs.take 2 = ['/', '/'] ∧ cs.take 3 ≠ ['/', '/', '/'] then 2 else 1
  else 0

/-- The character-level body of `posixpath.normpath`: preserved leading
slashes, then the kept components joined by `'/'`. -/
def normpathData (cs : List Char) : List Char :=
  let slashes := initialSlashCount cs
  let newComps := (splitSlash cs).foldl (normStep (slashes ≠ 0)) []
  List.replicate slashes '/' ++ joinSlash newComps

/-- `posixpath.normpath` (`path or '.'` on both the empty input and an
empty join result). -/
def os_normpath (p : String) : String :=
  if p = "" then "." else
  if normpathData p.data = [] then "." else String.mk (normpathData p.data)

/-- `posixpath.basename`: the part after the last `'/'`. -/
def os_basename (p : String) : String :=
  String.mk ((splitSlash p.data).getLastD [])

/-- `_norm` from both scripts. -/
def _norm (p : String) : String := os_basename (os_normpath p)

/- ### Mapping resolver: `get_page_from_publish` -/

/-- The digit-run capture of `re.search(r"/pages/(\d+)", url)`: the
maximal ASCII digit run following the leftmost occurrence of `/pages/`
that is followed by at least one digit. -/
def findPagesId : List Char → Option String
  | [] => none
  | c :: rest =>
    if ("/pages/").data.isPrefixOf (c :: rest) then
      let after := (c :: rest).drop 7
      match after with
      | d :: _ =>
        if d.isDigit then some (String.mk (after.takeWhile Char.isDigit))
        else findPagesId rest
      | [] => findPagesId rest
    else findPagesId rest

/-- Resolved page identity: `{"id": page_id, "url": page_url}`.  The
`url` field stores the raw mapping value (`.null` for a missing key,
matching Python's `None`). -/
structure PageInfo where
  id : String
  url : Yaml

/-- `item = (cfg[0] if isinstance(cfg, list) and cfg else cfg) if cfg else None`. -/
def extractItem (cfg : Option Yaml) : Option Yaml :=
  match cfg with
  | none => none
  | some c =>
    if c.truthy then
      match c with
      | .list (x :: _) => some x
      | _ => some c
    else none

/-- `str.strip()`: drop leading and trailing whitespace (the scripts
only meet ASCII whitespace; written structurally so it evaluates in the
kernel). -/
def pyStrip (s : String) : String :=
  String.mk ((s.data.dropWhile Char.isWhitespace).reverse.dropWhile Char.isWhitespace).reverse

/-- Page-id extraction from one matched `confluence` item (the body of
the matched-entry branch of `get_page_from_publish`). -/
def itemResolve (item? : Option Yaml) : Except Failure PageInfo :=
  match item? with
  | some (.dict kvs) =>
    let idVal := (List.lookup "id" kvs).getD .null
    let pageId0 := pyStrip (Yaml.pyStr (if idVal.truthy then idVal else .str ""))
    let pageUrl := (List.lookup "url" kvs).getD .null
    if pageId0 = "" ∧ pageUrl.truthy then
      match pageUrl with
      | .str u =>
        match findPagesId u.data with
        | some pid => .ok ⟨pid, pageUrl⟩
        | none => .error .configNoPageId
      | _ => .error .pyError
    else if pageId0 = "" then .error .configNoPageId
    else .ok ⟨pageId0, pageUrl⟩
  | _ => .error .configNoConfluence

/-- Resolution of one matched mapping entry. -/
def entryResolve (entry : Yaml) : Except Failure PageInfo :=
  itemResolve (extractItem (yamlGet entry "confluence"))

/-- The entry loop of `get_page_from_publish`, keyed by the normalised
target filename. -/
def goEntries (target : String) : List Yaml → Except Failure PageInfo
  | [] => .error .configSourceNotFound
  | e :: rest =>
    match e with
    | .dict kvs =>
      match (List.lookup "source" kvs).getD (.str "") with
      | .str s =>
        if _norm s = target then entryResolve (.dict kvs)
        else goEntries target rest
      | _ => .error .pyError
    | _ => goEntries target rest

/-- `get_page_from_publish` (identical in both scripts), applied to the
already-parsed mapping document. -/
def get_page_from_publish (data : Yaml) (source_qmd : String) :
    Except Failure PageInfo :=
  match data with
  | .list entries => goEntries (_norm source_qmd) entries
  | _ => .error .configNotAList

/- ### Endpoint resolver: `urlsplit`, `infer_base_url_from_page_url`,
`resolve_base_url`, credentials -/

/-- `str.startswith(pre)` (structural, so it evaluates in the kernel). -/
def strStartsWith (s pre : String) : Bool := pre.data.isPrefixOf s.data

/-- Characters allowed in a URL scheme (`urllib.parse.scheme_chars`). -/
def schemeChar (c : Char) : Bool :=
  c.isAlpha || c.isDigit || c = '+' || c = '-' || c = '.'

/-- ASCII lower-casing (schemes are ASCII-validated before lowering). -/
def asciiLower (c : Char) : Char :=
  if 'A' ≤ c ∧ c ≤ 'Z' then Char.ofNat (c.toNat + 32) else c

/-- Split a character list at the first occurrence of `sep`. -/
def splitAtFirst (sep : Char) : List Char → Option (List Char × List Char)
  | [] => none
  | c :: cs =>
    if c = sep then some ([], cs)
    else (splitAtFirst sep cs).map (fun ab => (c :: ab.1, ab.2))

/-- Result of `urllib.parse.urlsplit`. -/
structure SplitResult where
  scheme : String
  netloc : String
  path : String
  query : String
  fragment : String

/-- `urllib.parse.urlsplit` (modern CPython): strip unsafe bytes, peel a
valid scheme, a `//`-introduced netloc (up to the first of `/?#`), then
fragment and query.  Bracketed-IPv6 validation (which raises in Python
on malformed hosts) is outside the modelled domain. -/
def urlsplit (url : String) : SplitResult :=
  let u0 := url.data.filter (fun c => c ≠ '\t' ∧ c ≠ '\r' ∧ c ≠ '\n')
  let schemeRest : List Char × List Char :=
    match splitAtFirst ':' u0 with
    | some (pre, post) =>
      if ((match pre with | c :: _ => c.isAlpha | [] => false) && pre.all schemeChar)
      then (pre.map asciiLower, post) else ([], u0)
    | none => ([], u0)
  let netlocRest : List Char × List Char :=
    match schemeRest.2 with
    | '/' :: '/' :: rest =>
      let n := rest.takeWhile (fun c => c ≠ '/' ∧ c ≠ '?' ∧ c ≠ '#')
      (n, rest.drop n.length)
    | u1 => ([], u1)
  let pathFrag : List Char × List Char :=
    match splitAtFirst '#' netlocRest.2 with
    | some (a, b) => (a, b)
    | none => (netlocRest.2, [])
  let pathQuery : List Char × List Char :=
    match splitAtFirst '?' pathFrag.1 with
    | some (a, b) => (a, b)
    | none => (pathFrag.1, [])
  ⟨String.mk schemeRest.1, String.mk netlocRest.1, String.mk pathQuery.1,
   String.mk pathQuery.2, String.mk pathFrag.2⟩

/-- `infer_base_url_from_page_url` (identical in both scripts). -/
def infer_base_url_from_page_url (page_url : String) : Option String :=
  if page_url = "" then none else
  let parts := urlsplit page_url
  let ctx :=
    if strStartsWith parts.path "/wiki" then "/wiki"
    else if strStartsWith parts.path "/confluence" then "/confluence"
    else ""
  if parts.scheme ≠ "" ∧ parts.netloc ≠ "" then
    some (parts.scheme ++ "://" ++ parts.netloc ++ ctx)
  else none

/-- Python `a or b` on optional strings (`None` and `""` are falsy). -/
def pyOr (a b : Option String) : Option String :=
  match a with
  | some s => if s ≠ "" then some s else b
  | none => b

/-- Truthiness of an optional string. -/
def optTruthy (a : Option String) : Bool :=
  match a with
  | some s => s != ""
  | none => false

/-- `str.rstrip('/')`: drop every trailing slash. -/
def rstripSlashes (s : String) : String :=
  String.mk (s.data.reverse.dropWhile (fun c => c = '/')).reverse

/-- Ambient environment variables read by the scripts. -/
structure Env where
  baseUrl : Option String
  email : Option String
  token : Option String

/-- `resolve_base_url` (identical in both scripts): first truthy of the
CLI override, `CONFLUENCE_BASE_URL`, and the inference from the page
URL; `typer.Exit(code=2)` when none is truthy. -/
def resolve_base_url (cli envBase pageUrl : Option String) : Except Failure String :=
  match pyOr (pyOr cli envBase) (infer_base_url_from_page_url (pageUrl.getD "")) with
  | some b => if b ≠ "" then .ok (rstripSlashes b) else .error .noBaseUrl
  | none => .error .noBaseUrl

/-- Modelled from the spec: the inference step as §4.2/§3 describe it —
"scheme/host plus a recognized path prefix (`/wiki` or `/confluence`,
else empty)".  Used only as the comparison point for the refinement
claim about base-URL resolution. -/
def inferBaseUrlSpec (u : String) : Option String :=
  let parts := urlsplit u
  if parts.scheme ≠ "" ∧ parts.netloc ≠ "" then
    some (parts.scheme ++ "://" ++ parts.netloc ++
      (if strStartsWith parts.path "/wiki" then "/wiki"
       else if strStartsWith parts.path "/confluence" then "/confluence"
       else ""))
  else none

/-- Modelled from the spec: resolution precedence "explicit override >
environment variable > inference from `page_url`", failing when no
source yields a value, with no trailing slash on the result. -/
def resolveBaseUrlSpec (cli envBase pageUrl : Option String) : Except Failure String :=
  if optTruthy cli then .ok (rstripSlashes (cli.getD ""))
  else if optTruthy envBase then .ok (rstripSlashes (envBase.getD ""))
  else
    match inferBaseUrlSpec (pageUrl.getD "") with
    | some b => .ok (rstripSlashes b)
    | none => .error .noBaseUrl

/-- `env_or_die`: a missing or empty environment variable is fatal. -/
def env_or_die (v : Option String) : Except Failure String :=
  match v with
  | some s => if s ≠ "" then .ok s else .error .envMissing
  | none => .error .envMissing

/-- `make_auth`: CLI override or environment variable for each of the
two credentials. -/
def make_auth (email token : Option String) (env : Env) :
    Except Failure (String × String) := do
  let em ← match email with
    | some s => if s ≠ "" then Except.ok s else env_or_die env.email
    | none => env_or_die env.email
  let tk ← match token with
    | some s => if s ≠ "" then Except.ok s else env_or_die env.token
    | none => env_or_die env.token
  pure (em, tk)

/- ### HTTP abstraction and network mutations -/

/-- One HTTP response: status code and decoded JSON body. -/
structure HttpResp where
  status : Nat
  body : Yaml

/-- Network mutation calls issued by the scripts.  Each carries the
request identity the source puts in the URL / multipart body. -/
inductive Mutation where
  | create (pageId uploadName filePath : String) (comment : Option String)
  | update (pageId attachmentId uploadName filePath : String) (comment : Option String)
  | delete (attachmentId : String)
deriving DecidableEq

/-- Whether a mutation is a delete call. -/
def Mutation.isDelete : Mutation → Bool
  | .delete _ => true
  | _ => false

/-- Python f-string interpolation of a possibly-missing dictionary
value (`None` prints as `"None"`). -/
def fstrOpt (v : Option Yaml) : String :=
  match v with
  | some y => y.pyStr
  | none => "None"

/-- `(y.get(k1) or {}).get(k2)`: the inner dictionary defaults to empty
when the `k1` value is falsy; a truthy non-dictionary value (on which
Python would raise `AttributeError`) is a `pyError`. -/
def orEmptyGet (y : Yaml) (k1 k2 : String) : Except Failure (Option Yaml) :=
  match y with
  | .dict kvs =>
    let v := (List.lookup k1 kvs).getD .null
    match (if v.truthy then v else .dict []) with
    | .dict inner => .ok (List.lookup k2 inner)
    | _ => .error .pyError
  | _ => .error .pyError

/-- `y or {}` coerced to a key-value list (Python raises
`AttributeError` later when a truthy non-dictionary is `.get`-ed). -/
def orEmptyDict (v : Yaml) : Except Failure (List (String × Yaml)) :=
  match (if v.truthy then v else .dict []) with
  | .dict kvs => .ok kvs
  | _ => .error .pyError

/- ### `lookup_attachment_by_name` -/

/-- The sort key `(a.get("version") or {}).get("number", 0)`.  Total
function used only on elements accepted by `verShapeOk`. -/
def verNum (a : Yaml) : Int :=
  match a with
  | .dict kvs =>
    match (if ((List.lookup "version" kvs).getD .null).truthy
           then (List.lookup "version" kvs).getD .null else .dict []) with
    | .dict vk =>
      match (List.lookup "number" vk).getD (.int 0) with
      | .int n => n
      | _ => 0
    | _ => 0
  | _ => 0

/-- Shape guard for the sort key: the element is an object, its
`version` (defaulted to an empty object when falsy) is an object, and
the `number` (defaulted to `0`) is an integer.  Elements outside this
shape make the source raise `TypeError`/`AttributeError` while sorting
(non-integer `number` keys of one uniform comparable type would be an
exception, outside the claims' domain). -/
def verShapeOk (a : Yaml) : Bool :=
  match a with
  | .dict kvs =>
    match (if ((List.lookup "version" kvs).getD .null).truthy
           then (List.lookup "version" kvs).getD .null else .dict []) with
    | .dict vk =>
      match (List.lookup "number" vk).getD (.int 0) with
      | .int _ => true
      | _ => false
    | _ => false
  | _ => false

/-- `results.sort(key=..., reverse=True)`: Python's sort is stable, so
its output equals stable insertion sort under "key not below". -/
def sortVerDesc (rs : List Yaml) : List Yaml :=
  List.insertionSort (fun a b => verNum b ≤ verNum a) rs

/-- `lookup_attachment_by_name`, applied to the oracle's response to
`GET .../child/attachment?filename=...`.  `raise_for_status` raises on
4xx/5xx; an empty result list yields `None`; otherwise the list is
sorted by version number descending and the first element returned. -/
def lookup_attachment_by_name (r : HttpResp) : Except Failure (Option Yaml) :=
  if 400 ≤ r.status ∧ r.status < 600 then .error (.httpError r.status)
  else
    match r.body with
    | .dict kvs =>
      let results := (List.lookup "results" kvs).getD (.list [])
      if !results.truthy then .ok none
      else
        match results with
        | .list rs =>
          if rs.all verShapeOk then
            match sortVerDesc rs with
            | a :: _ => .ok (some a)
            | [] => .ok none
          else .error .pyError
        | _ => .error .pyError
    | _ => .error .pyError

/- ### Reconciliation engine: `update_cmd` -/

/-- CLI arguments of the `update` command.  `fileName` is `file.name`
(the upload file's base name), `filePath` identifies the local file
read for upload. -/
structure UpdateArgs where
  source : String
  filePath : String
  fileName : String
  publishData : Yaml
  attachment_name : Option String
  attachment_id : Option String
  comment : Option String
  create_if_missing : Bool
  dry_run : Bool
  base_url : Option String
  email : Option String
  token : Option String

/-- Remote-service oracle for the update command: responses to the two
read requests and to any mutation. -/
structure Remote where
  fetchAttachment : String → HttpResp
  lookupByFilename : String → HttpResp
  respond : Mutation → HttpResp

/-- `page_url or ""` coerced for `resolve_base_url`: the stored mapping
value must be a string (or falsy, giving `""`); a truthy non-string
would make `re.search`/`urlsplit` raise. -/
def yamlAsPageUrl : Yaml → Except Failure String
  | .null => .ok ""
  | .str s => .ok s
  | v => if v.truthy then .error .pyError else .ok ""

/-- `att_obj.get("title") or fallback`.  A truthy non-string title (a
shape the remote API never produces) is outside the modelled domain. -/
def titleOr (body : Yaml) (fallback : String) : Except Failure String :=
  match body with
  | .dict kvs =>
    let v := (List.lookup "title" kvs).getD .null
    if v.truthy then
      match v with
      | .str s => .ok s
      | _ => .error .pyError
    else .ok fallback
  | _ => .error .pyError

/-- Truthiness of the resolved `att_obj` (`if not att_obj:`). -/
def attTruthy : Option Yaml → Bool
  | none => false
  | some y => y.truthy

/-- `created = (res.get("results") or [res])[0]`. -/
def createdOf (res : Yaml) : Except Failure Yaml :=
  match res with
  | .dict kvs =>
    let v := (List.lookup "results" kvs).getD .null
    if v.truthy then
      match v with
      | .list (x :: _) => .ok x
      | _ => .error .pyError
    else .ok res
  | _ => .error .pyError

/-- Reported outcome of a successful (or dry-run) `update` command. -/
inductive UpdateOutcome where
  | dryRunCreate
  | dryRunUpdate
  | created (id : String) (version : Option Yaml)
  | updated (version : Option Yaml) (size : Option Yaml) (download : Option String)

/-- `update_attachment`: POST new data for an existing attachment id;
any status other than 200 is fatal. -/
def update_attachment (remote : Remote) (pageId attachmentId uploadName filePath : String)
    (comment : Option String) : Except Failure Yaml × List Mutation :=
  let m := Mutation.update pageId attachmentId uploadName filePath comment
  let r := remote.respond m
  (if r.status ≠ 200 then .error (.updateFailed r.status) else .ok r.body, [m])

/-- `create_attachment`: POST a new attachment; any status other than
200/201 is fatal. -/
def create_attachment (remote : Remote) (pageId uploadName filePath : String)
    (comment : Option String) : Except Failure Yaml × List Mutation :=
  let m := Mutation.create pageId uploadName filePath comment
  let r := remote.respond m
  (if r.status ≠ 200 ∧ r.status ≠ 201 then .error (.createFailed r.status) else .ok r.body, [m])

/-- The attachment-resolution step of `update_cmd`: explicit id (GET it,
prefer its server title as upload name) or lookup by filename.  Returns
`att_obj` and the possibly-overridden upload name. -/
def resolve_attachment_obj (args : UpdateArgs) (remote : Remote) (uploadName0 : String) :
    Except Failure (Option Yaml × String) :=
  if optTruthy args.attachment_id then
    let r := remote.fetchAttachment (args.attachment_id.getD "")
    if r.status = 200 then
      match titleOr r.body uploadName0 with
      | .ok un => .ok (some r.body, un)
      | .error e => .error e
    else .error (.attachmentNotAccessible r.status)
  else
    match lookup_attachment_by_name (remote.lookupByFilename uploadName0) with
    | .ok o => .ok (o, uploadName0)
    | .error e => .error e

/-- Everything `update_cmd` does before deciding on a mutation: mapping
resolution, credentials, base URL, upload-name default, attachment
resolution. -/
def update_resolve_phase (args : UpdateArgs) (env : Env) (remote : Remote) :
    Except Failure (PageInfo × String × Option Yaml × String) := do
  let info ← get_page_from_publish args.publishData args.source
  let _auth ← make_auth args.email args.token env
  let purl ← yamlAsPageUrl info.url
  let b ← resolve_base_url args.base_url env.baseUrl (some purl)
  let uploadName0 := (pyOr args.attachment_name (some args.fileName)).getD args.fileName
  let res ← resolve_attachment_obj args remote uploadName0
  pure (info, b, res.1, res.2)

/-- Success reporting of the create branch (`created.get("id")`,
version number). -/
def describeCreated (res : Yaml) : Except Failure UpdateOutcome := do
  let created ← createdOf res
  match created with
  | .dict kvs =>
    let vnum ← orEmptyGet created "version" "number"
    pure (.created (fstrOpt (List.lookup "id" kvs)) vnum)
  | _ => .error .pyError

/-- Success reporting of the update branch (new version, size, download
link prefixed with the base URL when present). -/
def describeUpdated (b : String) (res : Yaml) : Except Failure UpdateOutcome := do
  let nv ← orEmptyGet res "version" "number"
  let size ← orEmptyGet res "extensions" "fileSize"
  match res with
  | .dict kvs =>
    let links ← orEmptyDict ((List.lookup "_links" kvs).getD .null)
    let dl := (List.lookup "download" links).getD .null
    pure (.updated nv size (if dl.truthy then some (b ++ dl.pyStr) else none))
  | _ => .error .pyError

/-- The create call followed by `update_cmd`'s result reporting. -/
def runCreateCall (remote : Remote) (pageId uploadName filePath : String)
    (comment : Option String) : Except Failure UpdateOutcome × List Mutation :=
  let res := create_attachment remote pageId uploadName filePath comment
  (match res.1 with
   | .ok body =>
     match describeCreated body with
     | .ok out => .ok out
     | .error e => .error e
   | .error e => .error e,
   res.2)

/-- The update call followed by `update_cmd`'s result reporting. -/
def runUpdateCall (remote : Remote) (b pageId attachmentId uploadName filePath : String)
    (comment : Option String) : Except Failure UpdateOutcome × List Mutation :=
  let res := update_attachment remote pageId attachmentId uploadName filePath comment
  (match res.1 with
   | .ok body =>
     match describeUpdated b body with
     | .ok out => .ok out
     | .error e => .error e
   | .error e => .error e,
   res.2)

/-- The decide-then-mutate part of `update_cmd`, after resolution. -/
def update_mutate_phase (args : UpdateArgs) (remote : Remote) (pageId : String)
    (b : String) (attObj? : Option Yaml) (uploadName : String) :
    Except Failure UpdateOutcome × List Mutation :=
  if !attTruthy attObj? then
    if !args.create_if_missing then (.error .notFound, [])
    else if args.dry_run then (.ok .dryRunCreate, [])
    else runCreateCall remote pageId uploadName args.filePath args.comment
  else
    match attObj? with
    | none => (.error .pyError, [])
    | some a =>
      match a with
      | .dict kvs =>
        let aid := fstrOpt (List.lookup "id" kvs)
        match titleOr a uploadName with
        | .error e => (.error e, [])
        | .ok current_title =>
          match orEmptyGet a "version" "number" with
          | .error e => (.error e, [])
          | .ok _current_ver =>
            if args.dry_run then (.ok .dryRunUpdate, [])
            else runUpdateCall remote b pageId aid current_title args.filePath args.comment
      | _ => (.error .pyError, [])

/-- The `update` command: resolve, then mutate; mutation calls are
collected in the trace (second component). -/
def update_cmd (args : UpdateArgs) (env : Env) (remote : Remote) :
    Except Failure UpdateOutcome × List Mutation :=
  match update_resolve_phase args env remote with
  | .error e => (.error e, [])
  | .ok (info, b, attObj?, uploadName) =>
    update_mutate_phase args remote info.id b attObj? uploadName

/-- The attachment object `update_cmd` resolves (via explicit id or
filename lookup), when resolution completes. -/
def resolvedAttachment (args : UpdateArgs) (env : Env) (remote : Remote) : Option Yaml :=
  match update_resolve_phase args env remote with
  | .ok (_, _, o, _) => o
  | .error _ => none

/- ### Attachment lister: `iter_attachments`, `list_page_attachments` -/

/-- `iter_attachments`: request `(start, limit)` pages, concatenate the
`results` arrays, continue while `(data.get("_links") or {}).get("next")`
is truthy, advancing `start` by `limit`.  The request log records every
`(start, limit)` pair issued.  `fuel` bounds the loop: exhausting it
models non-termination against a remote that always signals more. -/
def iter_attachments (pages : Nat → Nat → HttpResp) (limit : Nat) :
    Nat → Nat → Except Failure (List Yaml × List (Nat × Nat))
  | _, 0 => .error .outOfFuel
  | start, fuel + 1 =>
    let r := pages start limit
    if 400 ≤ r.status ∧ r.status < 600 then .error (.httpError r.status)
    else
      match r.body with
      | .dict kvs =>
        match (List.lookup "results" kvs).getD (.list []) with
        | .list atts =>
          match orEmptyDict ((List.lookup "_links" kvs).getD .null) with
          | .error e => .error e
          | .ok links =>
            if ((List.lookup "next" links).getD .null).truthy then
              match iter_attachments pages limit (start + limit) fuel with
              | .ok (rest, log) => .ok (atts ++ rest, (start, limit) :: log)
              | .error e => .error e
            else .ok (atts, [(start, limit)])
        | _ => .error .pyError
      | _ => .error .pyError

/-- `iter_attachments` as its callers invoke it: default `limit=50`,
`start=0` (the page size is an implementation constant). -/
def iter_attachments_default (pages : Nat → Nat → HttpResp) (fuel : Nat) :
    Except Failure (List Yaml × List (Nat × Nat)) :=
  iter_attachments pages 50 0 fuel

/-- The canonical remote attachment store: a fixed list served in
50-record slices, with a `_links.next` marker exactly while records
remain beyond the requested slice. -/
def goodServer (atts : List Yaml) (start limit : Nat) : HttpResp :=
  ⟨200, .dict [("results", .list ((atts.drop start).take limit)),
    ("_links", if start + limit < atts.length
      then .dict [("next", .str "/next")] else .dict [])]⟩

/-- The normalised projection of one remote attachment built by
`list_page_attachments`. -/
structure AttRecord where
  id : Option Yaml
  title : Yaml
  mediaType : Option Yaml
  fileSize : Option Yaml
  version : Option Yaml
  created : Option Yaml
  creator : Option Yaml
  download : Option String
  webui : Option String

/-- Substring test (`needle in hay` on Python strings). -/
def containsSub (needle : List Char) : List Char → Bool
  | [] => needle.isEmpty
  | c :: cs => needle.isPrefixOf (c :: cs) || containsSub needle cs

/-- The filename filter of `list_page_attachments`:
`if filename_contains and filename_contains not in title: continue`.
Substring testing a non-string title raises `TypeError`. -/
def filterKeep (fc : Option String) (title : Yaml) : Except Failure Bool :=
  match fc with
  | some s =>
    if s ≠ "" then
      match title with
      | .str t => .ok (containsSub s.data t.data)
      | _ => .error .pyError
    else .ok true
  | none => .ok true

/-- Field projection of one attachment object (the dictionary built in
`list_page_attachments`' loop body). -/
def normalizeAtt (b : String) (kvs : List (String × Yaml)) (title : Yaml) :
    Except Failure AttRecord := do
  let ext ← orEmptyDict ((List.lookup "extensions" kvs).getD .null)
  let ver ← orEmptyDict ((List.lookup "version" kvs).getD .null)
  let links ← orEmptyDict ((List.lookup "_links" kvs).getD .null)
  let creatorBy ← orEmptyDict ((List.lookup "by" ver).getD .null)
  let dl := (List.lookup "download" links).getD .null
  let wb := (List.lookup "webui" links).getD .null
  pure
    { id := List.lookup "id" kvs
      title := title
      mediaType := List.lookup "mediaType" ext
      fileSize := List.lookup "fileSize" ext
      version := List.lookup "number" ver
      created := List.lookup "when" ver
      creator := List.lookup "displayName" creatorBy
      download := if dl.truthy then some (b ++ dl.pyStr) else none
      webui := if wb.truthy then some (b ++ wb.pyStr) else none }

/-- The collection loop of `list_page_attachments` over the flattened
iterator output. -/
def listGo (b : String) (fc : Option String) : List Yaml → Except Failure (List AttRecord)
  | [] => .ok []
  | att :: rest =>
    match att with
    | .dict kvs =>
      let title := (List.lookup "title" kvs).getD (.str "")
      match filterKeep fc title with
      | .error e => .error e
      | .ok keep =>
        if keep then do
          let item ← normalizeAtt b kvs title
          let tail ← listGo b fc rest
          pure (item :: tail)
        else listGo b fc rest
    | _ => .error .pyError

/-- `list_page_attachments`: flatten the paginated listing, filter by
filename substring, project each record. -/
def list_page_attachments (b : String) (pages : Nat → Nat → HttpResp) (fuel : Nat)
    (fc : Option String) : Except Failure (List AttRecord) := do
  let res ← iter_attachments_default pages fuel
  listGo b fc res.1

/- ### Deletion workflow: `delete_cmd` -/

/-- CLI arguments of the `delete` command (`dry_run` defaults to `true`
on the CLI). -/
structure DeleteArgs where
  source : String
  publishData : Yaml
  filename_contains : Option String
  dry_run : Bool
  yes : Bool
  base_url : Option String
  email : Option String
  token : Option String

/-- Remote-service oracle for the delete command: the paginated listing
endpoint and the response to each delete call (keyed by the attachment
id as interpolated into the URL). -/
structure DeleteRemote where
  pages : Nat → Nat → HttpResp
  deleteResp : String → HttpResp

/-- Reported outcome of the `delete` command. -/
inductive DeleteOutcome where
  | noMatches
  | dryRun
  | completed (failures : Nat)
deriving DecidableEq

/-- The deletion loop: one delete call per matched attachment, counting
as failed every response whose status is neither 204 nor 200. -/
def delete_loop (dr : String → HttpResp) : List AttRecord → Nat × List Mutation
  | [] => (0, [])
  | a :: rest =>
    let aid := fstrOpt a.id
    let r := dr aid
    let next := delete_loop dr rest
    ((if r.status = 204 ∨ r.status = 200 then 0 else 1) + next.1,
     Mutation.delete aid :: next.2)

/-- Everything `delete_cmd` does before the dry-run/confirmation gate:
mapping resolution, credentials, base URL, matched-attachment listing. -/
def delete_resolve_phase (args : DeleteArgs) (env : Env) (remote : DeleteRemote)
    (fuel : Nat) : Except Failure (PageInfo × String × List AttRecord) := do
  let info ← get_page_from_publish args.publishData args.source
  let _auth ← make_auth args.email args.token env
  let purl ← yamlAsPageUrl info.url
  let b ← resolve_base_url args.base_url env.baseUrl (some purl)
  let atts ← list_page_attachments b remote.pages fuel args.filename_contains
  pure (info, b, atts)

/-- The `delete` command: list matches, observe dry-run, require `--yes`
or interactive confirmation, then delete each match independently and
report the failure count. -/
def delete_cmd (args : DeleteArgs) (env : Env) (remote : DeleteRemote)
    (fuel : Nat) (confirm : Bool) : Except Failure DeleteOutcome × List Mutation :=
  match delete_resolve_phase args env remote fuel with
  | .error e => (.error e, [])
  | .ok (_info, _b, atts) =>
    if atts.isEmpty then (.ok .noMatches, [])
    else if args.dry_run then (.ok .dryRun, [])
    else if !args.yes ∧ !confirm then (.error .userDeclined, [])
    else
      let res := delete_loop remote.deleteResp atts
      (.ok (.completed res.1), res.2)

/- ### Claim-statement definitions and concrete scenario inputs -/

/-- The number of delete responses outside {200, 204} over a matched
set — the failure count the delete summary must report. -/
def countFailures (dr : String → HttpResp) (atts : List AttRecord) : Nat :=
  (atts.filter (fun a =>
    !((dr (fstrOpt a.id)).status == 204 || (dr (fstrOpt a.id)).status == 200))).length

/-- An entry the `get_page_from_publish` loop skips without effect:
either not a dictionary, or its (string) `source` does not normalise to
the target. -/
def entrySkips (target : String) (e : Yaml) : Bool :=
  match e with
  | .dict kvs =>
    match (List.lookup "source" kvs).getD (.str "") with
    | .str s => _norm s != target
    | _ => false
  | _ => true

/-- The as-stated reading of the page-id-extraction claim: the id
field, stringified and trimmed, wins whenever that trimmed value is
non-empty. -/
def idFieldAlwaysWins : Prop :=
  ∀ (kvs : List (String × Yaml)) (v : Yaml) (r : PageInfo),
    List.lookup "id" kvs = some v →
    pyStrip (Yaml.pyStr v) ≠ "" →
    itemResolve (some (.dict kvs)) = .ok r →
    r.id = pyStrip (Yaml.pyStr v)

/-- The per-page request log `(start, limit)` of a full pagination run:
`k` requests of width `limit` starting at 0. -/
def reqLog (limit : Nat) (k : Nat) : List (Nat × Nat) :=
  (List.range k).map (fun i => (limit * i, limit))

/-- Concrete scenario: canonical page URL from the spec's §8 example. -/
def wPageUrl : String := "https://org.atlassian.net/wiki/spaces/X/pages/123456/Title"

/-- Concrete scenario: a one-entry mapping file. -/
def wPublish : Yaml :=
  .list [.dict [("source", .str "figs/plot.qmd"),
                ("confluence", .dict [("url", .str wPageUrl)])]]

/-- Concrete scenario: environment with credentials, no base override. -/
def wEnv : Env := ⟨none, some "user@example.org", some "token123"⟩

/-- Concrete scenario: the remote attachment found by name lookup. -/
def wAtt : Yaml :=
  .dict [("id", .str "a9"), ("title", .str "plot.png"),
         ("version", .dict [("number", .int 3)])]

/-- Concrete scenario: remote oracle for the update command. -/
def wRemote : Remote :=
  ⟨fun _ => ⟨404, .null⟩,
   fun _ => ⟨200, .dict [("results", .list [wAtt])]⟩,
   fun _ => ⟨200, .dict [("version", .dict [("number", .int 4)]),
                         ("extensions", .dict [("fileSize", .int 100)]),
                         ("_links", .dict [])]⟩⟩

/-- Concrete scenario: update of `plot.png` with a differing `--name`. -/
def wArgs : UpdateArgs :=
  ⟨"figs/plot.qmd", "out/plot.png", "plot.png", wPublish, some "other.png",
   none, none, false, false, none, none, none⟩

/-- Concrete scenario: the same update invoked with `--dry-run`. -/
def wArgsDry : UpdateArgs := { wArgs with dry_run := true }

/-- Concrete scenario: delete run with `--no-dry-run --yes`. -/
def wDelArgs : DeleteArgs :=
  ⟨"figs/plot.qmd", wPublish, none, false, true, none, none, none⟩

/-- Concrete scenario: the same delete in its default dry-run mode. -/
def wDelArgsDry : DeleteArgs := { wDelArgs with dry_run := true }

/-- Concrete scenario: a two-attachment remote store. -/
def wStore : List Yaml :=
  [.dict [("id", .str "a1"), ("title", .str "x.png")],
   .dict [("id", .str "a2"), ("title", .str "y.png")]]

/-- Concrete scenario: delete oracle where `a1` succeeds (204) and `a2`
fails (500). -/
def wDelRemote : DeleteRemote :=
  ⟨goodServer wStore, fun s => if s = "a1" then ⟨204, .null⟩ else ⟨500, .str "denied"⟩⟩

/-- Concrete scenario: a 51-record store (page size + 1). -/
def wBigStore : List Yaml := (List.range 51).map (fun i => .int (i : Int))

/- ### Lemmas about path normalisation -/

theorem splitSlash_ne_nil : ∀ l : List Char, splitSlash l ≠ []
  | [] => by simp [splitSlash]
  | c :: cs => by
    simp only [splitSlash]
    split
    · simp
    · cases h : splitSlash cs <;> simp

theorem splitSlash_append : ∀ xs ys : List Char,
    splitSlash (xs ++ '/' :: ys) = splitSlash xs ++ splitSlash ys := by
  intro xs ys
  induction xs with
  | nil => simp [splitSlash]
  | cons c cs ih =>
    by_cases h : c = '/'
    · simp [splitSlash, h, ih]
    · cases hs : splitSlash cs with
      | nil => exact absurd hs (splitSlash_ne_nil cs)
      | cons g gs =>
        simp only [List.cons_append, splitSlash, if_neg h, List.append_eq]
        rw [ih, hs]
        simp

theorem splitSlash_no_slash : ∀ l : List Char, (∀ c ∈ l, c ≠ '/') → splitSlash l = [l] := by
  intro l h
  induction l with
  | nil => rfl
  | cons c cs ih =>
    have hc : c ≠ '/' := h c (List.mem_cons_self c cs)
    have ihr := ih (fun x hx => h x (List.mem_cons_of_mem c hx))
    simp [splitSlash, hc, ihr]

theorem getLastD_concat_eq {α : Type} (l : List α) (x d : α) :
    (l ++ [x]).getLastD d = x := by
  induction l with
  | nil => rfl
  | cons a t ih =>
    cases t with
    | nil => rfl
    | cons b t' => simpa using ih

theorem getLastD_cons_ne_nil {α : Type} (a d : α) (l : List α) (h : l ≠ []) :
    (a :: l).getLastD d = l.getLastD d := by
  cases l with
  | nil => exact absurd rfl h
  | cons b t => rfl

theorem lastSplit_append_noslash (ys x : List Char) (hx : ∀ c ∈ x, c ≠ '/') :
    (splitSlash (ys ++ '/' :: x)).getLastD [] = x := by
  rw [splitSlash_append, splitSlash_no_slash x hx]
  exact getLastD_concat_eq _ _ _

theorem lastSplit_replicate (s : Nat) (x : List Char) (hx : ∀ c ∈ x, c ≠ '/')
    (_hne : x ≠ []) : (splitSlash (List.replicate s '/' ++ x)).getLastD [] = x := by
  induction s with
  | zero => simp [splitSlash_no_slash x hx]
  | succ n ih =>
    have : List.replicate (n + 1) '/' ++ x = '/' :: (List.replicate n '/' ++ x) := by
      simp [List.replicate_succ]
    rw [this]
    have hsplit : splitSlash ('/' :: (List.replicate n '/' ++ x)) =
        [] :: splitSlash (List.replicate n '/' ++ x) := by
      simp [splitSlash]
    rw [hsplit, getLastD_cons_ne_nil _ _ _ (splitSlash_ne_nil _), ih]

theorem joinSlash_concat : ∀ (g : List Char) (gs : List (List Char)) (x : List Char),
    joinSlash ((g :: gs) ++ [x]) = joinSlash (g :: gs) ++ '/' :: x := by
  intro g gs
  induction gs generalizing g with
  | nil => intro x; rfl
  | cons g2 gs' ih =>
    intro x
    show joinSlash (g :: g2 :: (gs' ++ [x])) = (g ++ '/' :: joinSlash (g2 :: gs')) ++ '/' :: x
    have : joinSlash (g :: g2 :: (gs' ++ [x])) = g ++ '/' :: joinSlash ((g2 :: gs') ++ [x]) := rfl
    rw [this, ih g2 x]
    simp

theorem normStep_plain (b : Bool) (A : List (List Char)) (fc : List Char)
    (h1 : fc ≠ []) (h3 : fc ≠ ['.']) (h4 : fc ≠ ['.', '.']) :
    normStep b A fc = A ++ [fc] := by
  unfold normStep
  rw [if_neg (by simp [h1, h3]), if_pos h4]

theorem normpathData_append_slash (dcs fc : List Char) (h1 : fc ≠ [])
    (h2 : ∀ c ∈ fc, c ≠ '/') (h3 : fc ≠ ['.']) (h4 : fc ≠ ['.', '.']) :
    normpathData (dcs ++ '/' :: fc) ≠ [] ∧
    (splitSlash (normpathData (dcs ++ '/' :: fc))).getLastD [] = fc := by
  simp only [normpathData, splitSlash_append, splitSlash_no_slash fc h2, List.foldl_append,
    List.foldl_cons, List.foldl_nil, normStep_plain _ _ _ h1 h3 h4]
  set A := (splitSlash dcs).foldl
    (normStep (decide (initialSlashCount (dcs ++ '/' :: fc) ≠ 0))) [] with hA
  cases A with
  | nil =>
    constructor
    · simp [joinSlash, h1]
    · exact lastSplit_replicate _ fc h2 h1
  | cons g gs =>
    rw [joinSlash_concat g gs fc]
    constructor
    · simp
    · rw [← List.append_assoc]
      exact lastSplit_append_noslash _ fc h2

theorem data_append_slash (d f : String) :
    (d ++ "/" ++ f).data = d.data ++ '/' :: f.data := by
  have h1 : ∀ s t : String, (s ++ t).data = s.data ++ t.data := fun s t => String.data_append s t
  rw [h1, h1]
  simp

theorem norm_append_slash (d f : String) (h1 : f.data ≠ [])
    (h2 : ∀ c ∈ f.data, c ≠ '/') (h3 : f.data ≠ ['.']) (h4 : f.data ≠ ['.', '.']) :
    _norm (d ++ "/" ++ f) = f := by
  obtain ⟨hne, hlast⟩ := normpathData_append_slash d.data f.data h1 h2 h3 h4
  have hdata : (d ++ "/" ++ f).data = d.data ++ '/' :: f.data := data_append_slash d f
  have hpne : (d ++ "/" ++ f) ≠ "" := by
    intro h
    rw [h] at hdata
    simp at hdata
  show os_basename (os_normpath (d ++ "/" ++ f)) = f
  unfold os_normpath
  rw [if_neg hpne, hdata, if_neg hne]
  show String.mk ((splitSlash (normpathData (d.data ++ '/' :: f.data))).getLastD []) = f
  rw [hlast]

theorem norm_plain (f : String) (h1 : f.data ≠ []) (h2 : ∀ c ∈ f.data, c ≠ '/')
    (h3 : f.data ≠ ['.']) (h4 : f.data ≠ ['.', '.']) : _norm f = f := by
  have hfne : f ≠ "" := by
    intro h
    apply h1
    rw [h]
  have hslash : initialSlashCount f.data = 0 := by
    unfold initialSlashCount
    rw [if_neg]
    intro htake
    cases hf : f.data with
    | nil => exact h1 hf
    | cons c cs =>
      rw [hf] at htake
      simp [List.take] at htake
      exact h2 c (hf ▸ List.mem_cons_self c cs) htake
  have hnd : normpathData f.data = f.data := by
    unfold normpathData
    rw [hslash, splitSlash_no_slash f.data h2]
    simp only [List.foldl_cons, List.foldl_nil]
    rw [normStep_plain _ _ _ h1 h3 h4]
    simp [joinSlash]
  show os_basename (os_normpath f) = f
  unfold os_normpath
  rw [if_neg hfne, hnd, if_neg h1]
  show String.mk ((splitSlash f.data).getLastD []) = f
  rw [splitSlash_no_slash f.data h2]
  rfl

/- ### C6: resolution depends only on the base filename -/

theorem entryResolve_source_irrelevant (x : String) (kvs : List (String × Yaml)) :
    entryResolve (.dict (("source", .str x) :: kvs)) =
      itemResolve (extractItem (List.lookup "confluence" kvs)) := rfl

/-- C6: mapping resolution depends only on the normalised base
filename: (i) sources with equal `_norm` resolve identically against
any mapping document; (ii) prefixing a plain filename with any
directory path leaves `_norm` unchanged (queried-source side);
(iii) replacing an entry's `source` with any path of equal `_norm`
leaves the entry loop unchanged (entry side). -/
theorem resolution_depends_only_on_basename :
    (∀ (data : Yaml) (s1 s2 : String), _norm s1 = _norm s2 →
      get_page_from_publish data s1 = get_page_from_publish data s2) ∧
    (∀ (d f : String), f.data ≠ [] → (∀ c ∈ f.data, c ≠ '/') →
      f.data ≠ ['.'] → f.data ≠ ['.', '.'] →
      _norm (d ++ "/" ++ f) = _norm f) ∧
    (∀ (target s s' : String) (kvs : List (String × Yaml)) (rest : List Yaml),
      _norm s = _norm s' →
      goEntries target (.dict (("source", .str s) :: kvs) :: rest) =
      goEntries target (.dict (("source", .str s') :: kvs) :: rest)) := by
  refine ⟨?_, ?_, ?_⟩
  · intro data s1 s2 h
    cases data <;> simp [get_page_from_publish, h]
  · intro d f h1 h2 h3 h4
    rw [norm_append_slash d f h1 h2 h3 h4, norm_plain f h1 h2 h3 h4]
  · intro target s s' kvs rest h
    show (if _norm s = target then entryResolve (.dict (("source", .str s) :: kvs))
          else goEntries target rest) =
         (if _norm s' = target then entryResolve (.dict (("source", .str s') :: kvs))
          else goEntries target rest)
    rw [h, entryResolve_source_irrelevant, entryResolve_source_irrelevant]

/-- Witness for the basename-only resolution claim at concrete inputs. -/
theorem resolution_depends_only_on_basename_witness :
    get_page_from_publish wPublish "deep/figs/plot.qmd" =
      get_page_from_publish wPublish "plot.qmd" ∧
    _norm ("figs" ++ "/" ++ "plot.qmd") = _norm "plot.qmd" :=
  ⟨resolution_depends_only_on_basename.1 wPublish "deep/figs/plot.qmd" "plot.qmd" (by decide),
   resolution_depends_only_on_basename.2.1 "figs" "plot.qmd" (by decide) (by decide)
     (by decide) (by decide)⟩

/- ### C10: the earliest matching entry decides resolution -/

/-- C10: when several entries match the normalised source filename, the
loop resolves through the earliest matching dictionary entry alone —
the later entries (`post`) do not appear in the result, so an error in
that entry's `confluence` configuration is fatal even when a later
matching entry is well-formed. -/
theorem earliest_matching_entry_decides :
    ∀ (pre post : List Yaml) (kvs : List (String × Yaml)) (src s : String),
      pre.all (entrySkips (_norm src)) = true →
      (List.lookup "source" kvs).getD (.str "") = .str s →
      _norm s = _norm src →
      get_page_from_publish (.list (pre ++ .dict kvs :: post)) src =
        entryResolve (.dict kvs) := by
  intro pre post kvs src s hpre hsrc hnorm
  show goEntries (_norm src) (pre ++ .dict kvs :: post) = entryResolve (.dict kvs)
  induction pre with
  | nil =>
    show (match (List.lookup "source" kvs).getD (.str "") with
      | .str s => if _norm s = _norm src then entryResolve (.dict kvs)
                  else goEntries (_norm src) post
      | _ => Except.error .pyError) = entryResolve (.dict kvs)
    rw [hsrc]
    simp [hnorm]
  | cons p pre' ih =>
    rw [List.all_cons, Bool.and_eq_true] at hpre
    have hp := hpre.1
    have ihr := ih hpre.2
    cases p with
    | dict pkvs =>
      simp only [entrySkips] at hp
      cases hl : (List.lookup "source" pkvs).getD (.str "") with
      | str ps =>
        rw [hl] at hp
        have hne : _norm ps ≠ _norm src := by simpa using hp
        show (match (List.lookup "source" pkvs).getD (.str "") with
          | .str t => if _norm t = _norm src then entryResolve (.dict pkvs)
                      else goEntries (_norm src) (pre' ++ .dict kvs :: post)
          | _ => Except.error .pyError) = entryResolve (.dict kvs)
        rw [hl]
        simp only [if_neg hne]
        exact ihr
      | null => rw [hl] at hp; simp at hp
      | bool b => rw [hl] at hp; simp at hp
      | int n => rw [hl] at hp; simp at hp
      | list xs => rw [hl] at hp; simp at hp
      | dict d => rw [hl] at hp; simp at hp
    | null => exact ihr
    | bool b => exact ihr
    | int n => exact ihr
    | str t => exact ihr
    | list xs => exact ihr

/-- Witness: a first matching entry without a usable `confluence`
configuration is fatal even though the second matching entry resolves
to a valid page id. -/
theorem earliest_matching_entry_decides_witness :
    get_page_from_publish
      (.list [.dict [("source", .str "a.qmd")],
              .dict [("source", .str "sub/a.qmd"),
                     ("confluence", .dict [("id", .int 9)])]]) "a.qmd" =
      .error .configNoConfluence :=
  (earliest_matching_entry_decides [] [.dict [("source", .str "sub/a.qmd"),
      ("confluence", .dict [("id", .int 9)])]]
    [("source", .str "a.qmd")] "a.qmd" "a.qmd" rfl rfl rfl).trans rfl

/- ### C7: page-id extraction order (corrected) -/

/-- Counterexample to the as-stated extraction claim: with `id: 0` the
stringified, trimmed id is the non-empty `"0"`, yet resolution takes
the URL digit run `"456"` — the code truthiness-tests the raw id value
before stringifying, so a falsy id (0, false, null, "") is treated as
absent. -/
theorem id_zero_falls_back_to_url : ¬ idFieldAlwaysWins := by
  intro h
  have h456 := h [("id", .int 0), ("url", .str "https://x.example/wiki/pages/456/t")]
    (.int 0) ⟨"456", .str "https://x.example/wiki/pages/456/t"⟩ rfl (by decide) rfl
  exact absurd h456 (by decide)

/-- C7 amended: the page id is the stringified, trimmed id field
whenever the id value is truthy and that trimmed value is non-empty
(falsy id values — null, 0, false, "" — are treated as absent); only
otherwise is the first digit run after `/pages/` in the (string) url
field used; when neither yields a value the entry fails with the
ConfigError `configNoPageId`; and a mapping-resolution error of either
command aborts it before any network mutation. -/
theorem page_id_extraction_order :
    (∀ (kvs : List (String × Yaml)),
      ((pyStrip (Yaml.pyStr (if ((List.lookup "id" kvs).getD .null).truthy
            then (List.lookup "id" kvs).getD .null else .str "")) ≠ "" →
        itemResolve (some (.dict kvs)) =
          .ok ⟨pyStrip (Yaml.pyStr (if ((List.lookup "id" kvs).getD .null).truthy
            then (List.lookup "id" kvs).getD .null else .str "")),
            (List.lookup "url" kvs).getD .null⟩) ∧
      (pyStrip (Yaml.pyStr (if ((List.lookup "id" kvs).getD .null).truthy
            then (List.lookup "id" kvs).getD .null else .str "")) = "" →
        (∀ u, (List.lookup "url" kvs).getD .null = .str u → u ≠ "" →
          itemResolve (some (.dict kvs)) =
            (match findPagesId u.data with
             | some pid => .ok ⟨pid, .str u⟩
             | none => .error .configNoPageId)) ∧
        (((List.lookup "url" kvs).getD .null).truthy = false →
          itemResolve (some (.dict kvs)) = .error .configNoPageId)))) ∧
    (∀ (args : UpdateArgs) (env : Env) (remote : Remote) (e : Failure),
      get_page_from_publish args.publishData args.source = .error e →
      update_cmd args env remote = (.error e, [])) ∧
    (∀ (args : DeleteArgs) (env : Env) (remote : DeleteRemote) (fuel : Nat)
      (confirm : Bool) (e : Failure),
      get_page_from_publish args.publishData args.source = .error e →
      delete_cmd args env remote fuel confirm = (.error e, [])) := by
  refine ⟨?_, ?_, ?_⟩
  · intro kvs
    constructor
    · intro hne
      simp only [itemResolve]
      rw [if_neg (by simp [hne]), if_neg hne]
    · intro heq
      constructor
      · intro u hu hune
        simp only [itemResolve]
        rw [hu, if_pos ⟨heq, by simp [Yaml.truthy, hune]⟩]
      · intro hfalse
        simp only [itemResolve]
        rw [if_neg (by simp [hfalse]), if_pos heq]
  · intro args env remote e h
    show (match update_resolve_phase args env remote with
      | .error e => (Except.error e, ([] : List Mutation))
      | .ok (info, b, attObj?, uploadName) =>
        update_mutate_phase args remote info.id b attObj? uploadName) = (.error e, [])
    have : update_resolve_phase args env remote = .error e := by
      simp only [update_resolve_phase, h, bind, Except.bind]
    rw [this]
  · intro args env remote fuel confirm e h
    show (match delete_resolve_phase args env remote fuel with
      | .error e => (Except.error e, ([] : List Mutation))
      | .ok (_info, _b, atts) => _) = (.error e, [])
    have : delete_resolve_phase args env remote fuel = .error e := by
      simp only [delete_resolve_phase, h, bind, Except.bind]
    rw [this]

/-- Witness for the amended extraction order: a truthy id wins over a
present URL; with a falsy id the URL digit run is used; and a config
error aborts the update command with an empty mutation trace. -/
theorem page_id_extraction_order_witness :
    itemResolve (some (.dict [("id", .str " 77 "),
        ("url", .str "https://x.example/wiki/pages/456/t")])) =
      .ok ⟨"77", .str "https://x.example/wiki/pages/456/t"⟩ ∧
    itemResolve (some (.dict [("id", .int 0),
        ("url", .str "https://x.example/wiki/pages/456/t")])) =
      .ok ⟨"456", .str "https://x.example/wiki/pages/456/t"⟩ ∧
    update_cmd { wArgs with publishData := .str "oops" } wEnv wRemote =
      (.error .configNotAList, []) :=
  ⟨((page_id_extraction_order.1 [("id", .str " 77 "),
      ("url", .str "https://x.example/wiki/pages/456/t")]).1 (by decide)).trans rfl,
   (((page_id_extraction_order.1 [("id", .int 0),
      ("url", .str "https://x.example/wiki/pages/456/t")]).2 (by decide)).1
      "https://x.example/wiki/pages/456/t" rfl (by decide)).trans rfl,
   page_id_extraction_order.2.1 { wArgs with publishData := .str "oops" } wEnv wRemote
     .configNotAList rfl⟩

/- ### C8: base-URL resolution precedence -/

theorem infer_eq_spec (u : String) :
    infer_base_url_from_page_url u = inferBaseUrlSpec u := by
  by_cases h : u = ""
  · subst h
    rfl
  · unfold infer_base_url_from_page_url inferBaseUrlSpec
    rw [if_neg h]

theorem append_scheme_ne_empty (a c d : String) : a ++ "://" ++ c ++ d ≠ "" := by
  intro h
  have hd : (a ++ "://" ++ c ++ d).data = [] := by rw [h]
  rw [String.data_append, String.data_append, String.data_append] at hd
  rcases List.append_eq_nil.mp hd with ⟨h1, -⟩
  rcases List.append_eq_nil.mp h1 with ⟨h2, -⟩
  rcases List.append_eq_nil.mp h2 with ⟨-, h3⟩
  exact absurd h3 (by decide)

theorem infer_ne_empty (u b : String) (h : infer_base_url_from_page_url u = some b) :
    b ≠ "" := by
  unfold infer_base_url_from_page_url at h
  by_cases hu : u = ""
  · rw [if_pos hu] at h
    exact absurd h (by simp)
  · rw [if_neg hu] at h
    by_cases hc : (urlsplit u).scheme ≠ "" ∧ (urlsplit u).netloc ≠ ""
    · rw [if_pos hc] at h
      rw [← Option.some.inj h]
      exact append_scheme_ne_empty _ _ _
    · rw [if_neg hc] at h
      exact absurd h (by simp)

theorem dropWhile_head_not {α : Type} (p : α → Bool) :
    ∀ (l : List α) (c : α), (l.dropWhile p).head? = some c → p c = false := by
  intro l
  induction l with
  | nil => intro c h; simp [List.dropWhile] at h
  | cons a t ih =>
    intro c h
    by_cases hp : p a
    · rw [List.dropWhile_cons_of_pos hp] at h
      exact ih c h
    · rw [List.dropWhile_cons_of_neg hp] at h
      simp at h
      rw [← h]
      exact Bool.of_not_eq_true hp

theorem rstripSlashes_no_trailing (s : String) :
    (rstripSlashes s).data.getLast? ≠ some '/' := by
  show ((s.data.reverse.dropWhile (fun c => c = '/')).reverse).getLast? ≠ some '/'
  rw [List.getLast?_reverse]
  intro h
  have := dropWhile_head_not (fun c => c = '/') s.data.reverse '/' h
  simp at this

theorem resolve_eq_spec (cli envBase pageUrl : Option String) :
    resolve_base_url cli envBase pageUrl = resolveBaseUrlSpec cli envBase pageUrl := by
  unfold resolve_base_url resolveBaseUrlSpec pyOr optTruthy
  have hinf : ∀ X : Unit,
      (match infer_base_url_from_page_url (pageUrl.getD "") with
        | some b => if b ≠ "" then Except.ok (rstripSlashes b)
                    else Except.error Failure.noBaseUrl
        | none => (Except.error Failure.noBaseUrl : Except Failure String)) =
      (match inferBaseUrlSpec (pageUrl.getD "") with
        | some b => Except.ok (rstripSlashes b)
        | none => Except.error Failure.noBaseUrl) := by
    intro _
    rw [← infer_eq_spec]
    cases hi : infer_base_url_from_page_url (pageUrl.getD "") with
    | none => rfl
    | some b => simp [infer_ne_empty _ b hi]
  cases cli with
  | some c =>
    by_cases hc : c = ""
    · subst hc
      simp only [if_neg (by simp : ¬ (("" : String) ≠ ""))]
      cases envBase with
      | some ev =>
        by_cases he : ev = ""
        · subst he
          simp only [if_neg (by simp : ¬ (("" : String) ≠ ""))]
          exact hinf ()
        · simp [he]
      | none => exact hinf ()
    · simp [hc]
  | none =>
    cases envBase with
    | some ev =>
      by_cases he : ev = ""
      · subst he
        simp only [if_neg (by simp : ¬ (("" : String) ≠ ""))]
        exact hinf ()
      · simp [he]
    | none => exact hinf ()

/-- C8: base-URL resolution equals the spec's precedence order —
explicit override first, then the environment value, then inference
from the page URL's scheme and host plus the `/wiki` / `/confluence`
context segment (else empty) — failing with a ConfigError when no
source yields a value; and an `ok` result never ends in a slash. -/
theorem base_url_resolution_precedence :
    ∀ (cli envBase pageUrl : Option String),
      resolve_base_url cli envBase pageUrl = resolveBaseUrlSpec cli envBase pageUrl ∧
      (∀ b, resolve_base_url cli envBase pageUrl = .ok b →
        b.data.getLast? ≠ some '/') := by
  intro cli envBase pageUrl
  refine ⟨resolve_eq_spec cli envBase pageUrl, ?_⟩
  intro b hb
  rw [resolve_eq_spec] at hb
  unfold resolveBaseUrlSpec at hb
  by_cases h1 : optTruthy cli = true
  · rw [if_pos h1] at hb
    rw [← Except.ok.inj hb]
    exact rstripSlashes_no_trailing _
  · rw [if_neg h1] at hb
    by_cases h2 : optTruthy envBase = true
    · rw [if_pos h2] at hb
      rw [← Except.ok.inj hb]
      exact rstripSlashes_no_trailing _
    · rw [if_neg h2] at hb
      cases hi : inferBaseUrlSpec (pageUrl.getD "") with
      | none => rw [hi] at hb; exact absurd hb (by simp)
      | some v =>
        rw [hi] at hb
        rw [← Except.ok.inj hb]
        exact rstripSlashes_no_trailing _

/-- Witness for base-URL resolution: the §8 scenario URL infers
`https://org.atlassian.net/wiki`; an explicit override beats a set
environment value and is stripped of trailing slashes. -/
theorem base_url_resolution_precedence_witness :
    resolve_base_url none none (some wPageUrl) = resolveBaseUrlSpec none none (some wPageUrl) ∧
    resolve_base_url none none (some wPageUrl) = .ok "https://org.atlassian.net/wiki" ∧
    ("https://org.atlassian.net/wiki" : String).data.getLast? ≠ some '/' ∧
    resolve_base_url (some "https://h/x//") (some "ignored") none = .ok "https://h/x" :=
  ⟨(base_url_resolution_precedence none none (some wPageUrl)).1,
   by rfl,
   (base_url_resolution_precedence none none (some wPageUrl)).2
     "https://org.atlassian.net/wiki" (by rfl),
   by rfl⟩

/- ### C9: lookup selects the highest version among duplicates -/

/-- C9: for a non-error lookup response whose `results` list has the
modelled attachment shape, an empty list yields no attachment, and a
non-empty list yields the head of the stable descending version sort —
an element of the list whose version number is maximal. -/
theorem lookup_picks_highest_version :
    ∀ (rs : List Yaml) (st : Nat), st < 400 → rs.all verShapeOk = true →
      (rs = [] →
        lookup_attachment_by_name ⟨st, .dict [("results", .list rs)]⟩ = .ok none) ∧
      (rs ≠ [] → ∃ a,
        lookup_attachment_by_name ⟨st, .dict [("results", .list rs)]⟩ = .ok (some a) ∧
        a ∈ rs ∧ (∀ x ∈ rs, verNum x ≤ verNum a) ∧
        some a = (sortVerDesc rs).head?) := by
  intro rs st hst hshape
  have hnr : ¬ (400 ≤ st ∧ st < 600) := by omega
  have hred : lookup_attachment_by_name ⟨st, .dict [("results", .list rs)]⟩ =
      (if !(Yaml.list rs).truthy then .ok none
       else if rs.all verShapeOk then
         (match sortVerDesc rs with
          | a :: _ => .ok (some a)
          | [] => .ok none)
       else .error .pyError) := by
    unfold lookup_attachment_by_name
    rw [if_neg hnr]
    rfl
  constructor
  · intro h
    subst h
    rw [hred]
    rfl
  · intro hne
    haveI : IsTotal Yaml (fun a b => verNum b ≤ verNum a) :=
      ⟨fun a b => le_total (verNum b) (verNum a)⟩
    haveI : IsTrans Yaml (fun a b => verNum b ≤ verNum a) :=
      ⟨fun _ _ _ h1 h2 => le_trans h2 h1⟩
    have hperm := List.perm_insertionSort (fun a b => verNum b ≤ verNum a) rs
    have hsorted := List.sorted_insertionSort (fun a b => verNum b ≤ verNum a) rs
    cases hs : sortVerDesc rs with
    | nil =>
      exfalso
      apply hne
      have hlen := hperm.length_eq
      unfold sortVerDesc at hs
      rw [hs] at hlen
      exact List.length_eq_zero.mp hlen.symm
    | cons a t =>
      refine ⟨a, ?_, ?_, ?_, ?_⟩
      · rw [hred, hs]
        have htr : (Yaml.list rs).truthy = true := by
          obtain ⟨x, xs, rfl⟩ := List.exists_cons_of_ne_nil hne
          rfl
        rw [htr]
        simp [hshape]
      · apply hperm.mem_iff.mp
        show a ∈ sortVerDesc rs
        rw [hs]
        exact List.mem_cons_self a t
      · intro x hx
        have hxs : x ∈ sortVerDesc rs := hperm.mem_iff.mpr hx
        rw [hs] at hxs
        rcases List.mem_cons.mp hxs with hxa | hxt
        · rw [hxa]
        · have hsorted' : List.Sorted (fun a b => verNum b ≤ verNum a) (a :: t) := by
            unfold sortVerDesc at hs
            rw [← hs]
            exact hsorted
          exact List.rel_of_sorted_cons hsorted' x hxt
      · rfl

/-- Witness for the lookup claim: three same-named attachments with
versions 1, 3, 2 — the lookup returns the version-3 object; an empty
result list returns no attachment. -/
theorem lookup_picks_highest_version_witness :
    (∃ a, lookup_attachment_by_name ⟨200, .dict [("results", .list
        [.dict [("id", .str "v1"), ("version", .dict [("number", .int 1)])],
         .dict [("id", .str "v3"), ("version", .dict [("number", .int 3)])],
         .dict [("id", .str "v2"), ("version", .dict [("number", .int 2)])]])]⟩ =
        .ok (some a) ∧
      a ∈ [(.dict [("id", .str "v1"), ("version", .dict [("number", .int 1)])] : Yaml),
           .dict [("id", .str "v3"), ("version", .dict [("number", .int 3)])],
           .dict [("id", .str "v2"), ("version", .dict [("number", .int 2)])]] ∧
      (∀ x ∈ [(.dict [("id", .str "v1"), ("version", .dict [("number", .int 1)])] : Yaml),
           .dict [("id", .str "v3"), ("version", .dict [("number", .int 3)])],
           .dict [("id", .str "v2"), ("version", .dict [("number", .int 2)])]],
        verNum x ≤ verNum a) ∧
      some a = (sortVerDesc
        [.dict [("id", .str "v1"), ("version", .dict [("number", .int 1)])],
         .dict [("id", .str "v3"), ("version", .dict [("number", .int 3)])],
         .dict [("id", .str "v2"), ("version", .dict [("number", .int 2)])]]).head?) ∧
    lookup_attachment_by_name ⟨200, .dict [("results", .list [])]⟩ = .ok none :=
  ⟨(lookup_picks_highest_version
      [.dict [("id", .str "v1"), ("version", .dict [("number", .int 1)])],
       .dict [("id", .str "v3"), ("version", .dict [("number", .int 3)])],
       .dict [("id", .str "v2"), ("version", .dict [("number", .int 2)])]] 200
      (by omega) (by rfl)).2 (by simp),
   (lookup_picks_highest_version [] 200 (by omega) (by rfl)).1 rfl⟩

/- ### C5: at most one mutation per update invocation -/

theorem update_mutate_phase_trace (args : UpdateArgs) (remote : Remote)
    (pageId b : String) (attObj? : Option Yaml) (uploadName : String) :
    (update_mutate_phase args remote pageId b attObj? uploadName).2 = [] ∨
    ∃ m, (update_mutate_phase args remote pageId b attObj? uploadName).2 = [m] ∧
      m.isDelete = false := by
  unfold update_mutate_phase runCreateCall runUpdateCall
  repeat' split
  all_goals first
    | (left; rfl)
    | (right; exact ⟨_, rfl, rfl⟩)

/-- C5: one invocation of the update command issues at most one network
mutation — its trace is empty or a single create/update call, never a
delete and never two calls. -/
theorem update_at_most_one_mutation :
    ∀ (args : UpdateArgs) (env : Env) (remote : Remote),
      (update_cmd args env remote).2.length ≤ 1 ∧
      (update_cmd args env remote).2.all (fun m => !m.isDelete) = true := by
  intro args env remote
  have hcmd : (update_cmd args env remote).2 = [] ∨
      ∃ m, (update_cmd args env remote).2 = [m] ∧ m.isDelete = false := by
    unfold update_cmd
    cases h : update_resolve_phase args env remote with
    | error e => left; rfl
    | ok val =>
      obtain ⟨info, b, o, un⟩ := val
      exact update_mutate_phase_trace args remote info.id b o un
  rcases hcmd with h | ⟨m, h, hm⟩
  · rw [h]
    simp
  · rw [h]
    simp [hm]

/- ### C2: dry-run issues zero network mutations -/

theorem update_mutate_phase_dry (args : UpdateArgs) (remote : Remote)
    (pageId b : String) (attObj? : Option Yaml) (uploadName : String)
    (h : args.dry_run = true) :
    (update_mutate_phase args remote pageId b attObj? uploadName).2 = [] := by
  unfold update_mutate_phase
  repeat' split
  all_goals simp_all

/-- C2: with `dry_run` set, neither the update command nor the delete
workflow issues any network mutation call — both traces are empty on
every input. -/
theorem dry_run_issues_no_mutations :
    (∀ (args : UpdateArgs) (env : Env) (remote : Remote), args.dry_run = true →
      (update_cmd args env remote).2 = []) ∧
    (∀ (args : DeleteArgs) (env : Env) (remote : DeleteRemote) (fuel : Nat)
      (confirm : Bool), args.dry_run = true →
      (delete_cmd args env remote fuel confirm).2 = []) := by
  constructor
  · intro args env remote h
    unfold update_cmd
    cases hr : update_resolve_phase args env remote with
    | error e => rfl
    | ok val =>
      obtain ⟨info, b, o, un⟩ := val
      exact update_mutate_phase_dry args remote info.id b o un h
  · intro args env remote fuel confirm h
    unfold delete_cmd
    cases hr : delete_resolve_phase args env remote fuel with
    | error e => rfl
    | ok val =>
      obtain ⟨info, b, atts⟩ := val
      by_cases ha : atts.isEmpty
      · simp [ha]
      · simp [ha, h]

/-- Witness: the concrete dry-run update and the concrete dry-run
delete both leave an empty mutation trace. -/
theorem dry_run_issues_no_mutations_witness :
    (update_cmd wArgsDry wEnv wRemote).2 = [] ∧
    (delete_cmd wDelArgsDry wEnv wDelRemote 3 false).2 = [] :=
  ⟨dry_run_issues_no_mutations.1 wArgsDry wEnv wRemote rfl,
   dry_run_issues_no_mutations.2 wDelArgsDry wEnv wDelRemote 3 false rfl⟩

/- ### C1: the update call uses the existing remote title -/

theorem titleOr_of_title (kvs : List (String × Yaml)) (t fallback : String)
    (htitle : List.lookup "title" kvs = some (.str t)) (htne : t ≠ "") :
    titleOr (.dict kvs) fallback = .ok t := by
  show (if ((List.lookup "title" kvs).getD Yaml.null).truthy = true then
      match (List.lookup "title" kvs).getD Yaml.null with
      | Yaml.str s => Except.ok s
      | _ => Except.error Failure.pyError
    else Except.ok fallback) = Except.ok t
  rw [htitle]
  simp [Yaml.truthy, htne]

/-- C1: whenever the update command resolves an existing attachment
object (by name lookup or by explicit attachment-id fetch) whose remote
title is a non-empty string `t`, every update mutation it issues
carries upload name `t` — regardless of a differing `--name` argument
or local file name, so the update never renames the attachment. -/
theorem update_preserves_remote_title :
    ∀ (args : UpdateArgs) (env : Env) (remote : Remote)
      (kvs : List (String × Yaml)) (t : String),
      resolvedAttachment args env remote = some (.dict kvs) →
      List.lookup "title" kvs = some (.str t) → t ≠ "" →
      ∀ pid aid un fp c,
        Mutation.update pid aid un fp c ∈ (update_cmd args env remote).2 → un = t := by
  intro args env remote kvs t hres htitle htne pid aid un fp c hmem
  unfold resolvedAttachment at hres
  unfold update_cmd at hmem
  cases hr : update_resolve_phase args env remote with
  | error e =>
    rw [hr] at hres
    exact absurd hres (by simp)
  | ok val =>
    obtain ⟨info, b, o, un0⟩ := val
    rw [hr] at hres hmem
    have ho : o = some (.dict kvs) := hres
    subst ho
    replace hmem : Mutation.update pid aid un fp c ∈
        (update_mutate_phase args remote info.id b (some (Yaml.dict kvs)) un0).2 := hmem
    have hk : kvs ≠ [] := by
      intro hk0
      subst hk0
      simp [List.lookup] at htitle
    have htr : attTruthy (some (Yaml.dict kvs)) = true := by
      simp [attTruthy, Yaml.truthy, hk]
    have hphase : update_mutate_phase args remote info.id b (some (.dict kvs)) un0 =
        (match orEmptyGet (Yaml.dict kvs) "version" "number" with
         | .error e => (.error e, [])
         | .ok _ =>
           if args.dry_run then (.ok .dryRunUpdate, [])
           else runUpdateCall remote b info.id (fstrOpt (List.lookup "id" kvs)) t
             args.filePath args.comment) := by
      unfold update_mutate_phase
      rw [if_neg (by simp [htr])]
      show (match titleOr (Yaml.dict kvs) un0 with
        | .error e => ((Except.error e : Except Failure UpdateOutcome), ([] : List Mutation))
        | .ok current_title =>
          match orEmptyGet (Yaml.dict kvs) "version" "number" with
          | .error e => ((Except.error e : Except Failure UpdateOutcome), ([] : List Mutation))
          | .ok _current_ver =>
            if args.dry_run then (.ok .dryRunUpdate, [])
            else runUpdateCall remote b info.id (fstrOpt (List.lookup "id" kvs))
              current_title args.filePath args.comment) = _
      rw [titleOr_of_title kvs t un0 htitle htne]
    rw [hphase] at hmem
    cases hoe : orEmptyGet (Yaml.dict kvs) "version" "number" with
    | error e =>
      rw [hoe] at hmem
      simp at hmem
    | ok v =>
      rw [hoe] at hmem
      by_cases hdry : args.dry_run
      · rw [if_pos hdry] at hmem
        simp at hmem
      · rw [if_neg hdry] at hmem
        have htrace : (runUpdateCall remote b info.id (fstrOpt (List.lookup "id" kvs)) t
            args.filePath args.comment).2 =
            [Mutation.update info.id (fstrOpt (List.lookup "id" kvs)) t
              args.filePath args.comment] := rfl
        rw [htrace] at hmem
        have heq := List.mem_singleton.mp hmem
        rw [Mutation.update.injEq] at heq
        exact heq.2.2.1

/-- Witness: updating with a differing `--name other.png` while the
remote attachment found by lookup is titled `plot.png` — the single
issued update mutation carries upload name `plot.png`. -/
theorem update_preserves_remote_title_witness :
    resolvedAttachment wArgs wEnv wRemote = some wAtt ∧
    Mutation.update "123456" "a9" "plot.png" "out/plot.png" none ∈
      (update_cmd wArgs wEnv wRemote).2 ∧
    "plot.png" = "plot.png" :=
  ⟨by rfl,
   by
     have htrace : (update_cmd wArgs wEnv wRemote).2 =
         [Mutation.update "123456" "a9" "plot.png" "out/plot.png" none] := by rfl
     rw [htrace]
     exact List.mem_singleton.mpr rfl,
   update_preserves_remote_title wArgs wEnv wRemote
     [("id", .str "a9"), ("title", .str "plot.png"),
      ("version", .dict [("number", .int 3)])] "plot.png"
     (by rfl) (by rfl) (by decide) "123456" "a9" "plot.png" "out/plot.png" none
     (by
       have htrace : (update_cmd wArgs wEnv wRemote).2 =
           [Mutation.update "123456" "a9" "plot.png" "out/plot.png" none] := by rfl
       rw [htrace]
       exact List.mem_singleton.mpr rfl)⟩

/- ### C3: pagination collects the whole store -/

theorem iter_good_aux (atts : List Yaml) :
    ∀ (fuel : Nat), ∀ (start : Nat), 1 ≤ fuel → atts.length ≤ start + 50 * fuel →
      ∃ k, 1 ≤ k ∧ k ≤ fuel ∧
        iter_attachments (goodServer atts) 50 start fuel =
          .ok (atts.drop start, (List.range k).map (fun i => (start + 50 * i, 50))) ∧
        (∀ i, i + 1 < k → start + 50 * i + 50 < atts.length) ∧
        ¬ (start + 50 * (k - 1) + 50 < atts.length) := by
  intro fuel
  induction fuel with
  | zero => intro start h1 h2; omega
  | succ f ih =>
    intro start _h1 h2
    by_cases hlt : start + 50 < atts.length
    · have hstep : iter_attachments (goodServer atts) 50 start (f + 1) =
          (match iter_attachments (goodServer atts) 50 (start + 50) f with
           | .ok (rest, log) => .ok ((atts.drop start).take 50 ++ rest, (start, 50) :: log)
           | .error e => .error e) := by
        simp only [iter_attachments, goodServer]
        rw [if_pos hlt]
        rfl
      have hf1 : 1 ≤ f := by omega
      obtain ⟨k, hk1, hkf, heq, hmin, hlast⟩ := ih (start + 50) hf1 (by omega)
      refine ⟨k + 1, by omega, by omega, ?_, ?_, ?_⟩
      · rw [hstep, heq]
        have e1 : (atts.drop start).take 50 ++ atts.drop (start + 50) = atts.drop start := by
          have hd : atts.drop (start + 50) = (atts.drop start).drop 50 := by
            rw [List.drop_drop]
          rw [hd, List.take_append_drop]
        have e2 : ((start, 50) :: (List.range k).map (fun i => (start + 50 + 50 * i, 50))) =
            (List.range (k + 1)).map (fun i => (start + 50 * i, 50)) := by
          rw [List.range_succ_eq_map, List.map_cons, List.map_map]
          have hfn : ((fun i => (start + 50 * i, 50)) ∘ Nat.succ) =
              (fun i => (start + 50 + 50 * i, 50)) := by
            funext i
            show (start + 50 * (i + 1), 50) = (start + 50 + 50 * i, 50)
            congr 1
            ring
          rw [hfn]
          norm_num
        show Except.ok ((atts.drop start).take 50 ++ atts.drop (start + 50),
          (start, 50) :: (List.range k).map (fun i => (start + 50 + 50 * i, 50))) =
          Except.ok (atts.drop start, (List.range (k + 1)).map (fun i => (start + 50 * i, 50)))
        rw [e1, e2]
      · intro i hi
        cases i with
        | zero => simpa using hlt
        | succ j =>
          have := hmin j (by omega)
          omega
      · have := hlast
        have hs : start + 50 + 50 * (k - 1) = start + 50 * k := by omega
        rw [hs] at this
        simpa using this
    · have hstep : iter_attachments (goodServer atts) 50 start (f + 1) =
          .ok ((atts.drop start).take 50, [(start, 50)]) := by
        simp only [iter_attachments, goodServer]
        rw [if_neg hlt]
        rfl
      refine ⟨1, le_refl 1, by omega, ?_, by omega, by simpa using hlt⟩
      rw [hstep]
      have e1 : (atts.drop start).take 50 = atts.drop start := by
        apply List.take_of_length_le
        simp
        omega
      rw [e1]
      simp [List.range_succ]

/-- C3: against any remote store served in canonical 50-record pages
with a `_links.next` marker exactly while records remain, the lister
returns the full store in order (no record dropped or duplicated), and
the request log is `(0,50), (50,50), …` — every request asks for
exactly 50 records, `start` advances by 50, and the run stops exactly
at the first page whose has-more signal is absent. -/
theorem pagination_collects_all_records :
    ∀ (atts : List Yaml) (fuel : Nat), 1 ≤ fuel → atts.length ≤ 50 * fuel →
      ∃ k, 1 ≤ k ∧
        iter_attachments_default (goodServer atts) fuel =
          .ok (atts, (List.range k).map (fun i => (50 * i, 50))) ∧
        (∀ e ∈ (List.range k).map (fun i => (50 * i, 50)), e.2 = 50) ∧
        (∀ i, i + 1 < k → 50 * i + 50 < atts.length) ∧
        ¬ (50 * (k - 1) + 50 < atts.length) := by
  intro atts fuel h1 h2
  obtain ⟨k, hk1, -, heq, hmin, hlast⟩ := iter_good_aux atts fuel 0 h1 (by omega)
  refine ⟨k, hk1, ?_, ?_, ?_, ?_⟩
  · unfold iter_attachments_default
    rw [heq]
    simp
  · intro e he
    obtain ⟨i, -, rfl⟩ := List.mem_map.mp he
    rfl
  · intro i hi
    have := hmin i hi
    omega
  · simpa using hlast

/-- Witness: a 51-record store (page size + 1) is returned whole with
request log `[(0,50), (50,50)]`. -/
theorem pagination_collects_all_records_witness :
    ∃ k, 1 ≤ k ∧
      iter_attachments_default (goodServer wBigStore) 2 =
        .ok (wBigStore, (List.range k).map (fun i => (50 * i, 50))) ∧
      (∀ e ∈ (List.range k).map (fun i => (50 * i, 50)), e.2 = 50) ∧
      (∀ i, i + 1 < k → 50 * i + 50 < wBigStore.length) ∧
      ¬ (50 * (k - 1) + 50 < wBigStore.length) :=
  pagination_collects_all_records wBigStore 2 (by omega) (by decide)

/- ### C4: delete attempts all matches and counts failures -/

theorem delete_loop_spec (dr : String → HttpResp) :
    ∀ atts : List AttRecord,
      delete_loop dr atts = (countFailures dr atts,
        atts.map (fun a => Mutation.delete (fstrOpt a.id))) := by
  intro atts
  induction atts with
  | nil => rfl
  | cons a rest ih =>
    unfold delete_loop
    rw [ih]
    unfold countFailures
    by_cases h : (dr (fstrOpt a.id)).status = 204 ∨ (dr (fstrOpt a.id)).status = 200
    · have hp : (!((dr (fstrOpt a.id)).status == 204 ||
          (dr (fstrOpt a.id)).status == 200)) = false := by
        rcases h with h | h <;> simp [h]
      simp [List.filter_cons, hp, h]
      rw [if_neg (by tauto)]
    · have hp : (!((dr (fstrOpt a.id)).status == 204 ||
          (dr (fstrOpt a.id)).status == 200)) = true := by
        push_neg at h
        simp [h.1, h.2]
      simp [List.filter_cons, hp, h]
      rw [if_pos (by push_neg at h; exact ⟨h.1, h.2⟩)]
      simp [List.length_cons]
      omega

/-- C4: a non-dry-run, confirmed delete run over a non-empty matched
set issues one delete call per match — in order, none skipped after a
failure — and reports as failures exactly the matches whose delete
response status is neither 204 nor 200. -/
theorem delete_attempts_all_and_counts_failures :
    ∀ (args : DeleteArgs) (env : Env) (remote : DeleteRemote) (fuel : Nat)
      (confirm : Bool) (info : PageInfo) (b : String) (atts : List AttRecord),
      delete_resolve_phase args env remote fuel = .ok (info, b, atts) →
      atts.isEmpty = false → args.dry_run = false → (args.yes || confirm) = true →
      delete_cmd args env remote fuel confirm =
        (.ok (.completed (countFailures remote.deleteResp atts)),
         atts.map (fun a => Mutation.delete (fstrOpt a.id))) := by
  intro args env remote fuel confirm info b atts hres hne hdry hyes
  unfold delete_cmd
  rw [hres]
  show (if atts.isEmpty = true
      then ((Except.ok DeleteOutcome.noMatches : Except Failure DeleteOutcome),
            ([] : List Mutation))
      else if args.dry_run = true then (.ok .dryRun, [])
      else if (!args.yes) = true ∧ (!confirm) = true then (.error .userDeclined, [])
      else (.ok (.completed (delete_loop remote.deleteResp atts).1),
            (delete_loop remote.deleteResp atts).2)) = _
  rw [if_neg (by simp [hne]), if_neg (by simp [hdry]),
    if_neg (by rcases Bool.or_eq_true_iff.mp hyes with h | h <;> simp [h]),
    delete_loop_spec remote.deleteResp atts]

/-- Witness: two matched attachments, one delete answered 204 and one
500 — both deletes are attempted and exactly one failure reported. -/
theorem delete_attempts_all_and_counts_failures_witness :
    delete_cmd wDelArgs wEnv wDelRemote 3 false =
      (.ok (.completed 1), [Mutation.delete "a1", Mutation.delete "a2"]) :=
  (delete_attempts_all_and_counts_failures wDelArgs wEnv wDelRemote 3 false
    ⟨"123456", .str wPageUrl⟩ "https://org.atlassian.net/wiki"
    [{ id := some (.str "a1"), title := .str "x.png", mediaType := none,
       fileSize := none, version := none, created := none, creator := none,
       download := none, webui := none },
     { id := some (.str "a2"), title := .str "y.png", mediaType := none,
       fileSize := none, version := none, created := none, creator := none,
       download := none, webui := none }]
    (by rfl) rfl rfl rfl).trans (by rfl)
